import Mathlib

/-!
Verification of the completion-gate primitive (`pact/base.py`, class `PactBase`).

The class is embedded shallowly: the mutable attributes set in `__init__`
become the fields of `PactState`; each method becomes a function from a
state (and an environment describing the behaviour of the externally
supplied callbacks and predicate) to a new state together with an explicit
record of its observable effects.  User callbacks are opaque: a registry
holds callback identifiers (each identifier standing for the
`functools.partial` closure appended at registration time), and a per-call
environment maps an identifier to `none` (the call returns normally) or
`some e` (the call raises the exception token `e`).  Python exceptions are
modelled by the `Except` monad on exception tokens.
-/

namespace Pact

/-- Exception values raised by user callbacks, predicates and the wait-loop
service are opaque tokens, modelled as naturals. -/
abbrev Exc := Nat

/-- Errors raised by `PactBase` itself.  `_validate_can_add_callback` raises
`RuntimeError('Cannot append then callbacks after pact was finished')`; the
design document's error taxonomy names this condition `ConfigurationError`. -/
inductive PactError where
  | configurationError (msg : String)
deriving DecidableEq, Repr

/-- The mutable state of a `PactBase` instance: the attributes assigned in
`PactBase.__init__`.  Registries hold callback identifiers in registration
order; each identifier stands for the bound closure appended by
`then` / `during` / `on_timeout`. -/
structure PactState where
  _triggered : Bool
  _finished : Bool
  _then : List Nat
  _during : List Nat
  _timeout_callbacks : List Nat
  _timeout_seconds : Option Int
deriving DecidableEq, Repr

/-- Method `PactBase.__init__`: both flags false, registries empty, no default
timeout. -/
def initPact : PactState :=
  { _triggered := false
    _finished := false
    _then := []
    _during := []
    _timeout_callbacks := []
    _timeout_seconds := none }

/-- The environment of one `poll()` call: the behaviour of each during- and
then-callback on this call (`none` = returns, `some e` = raises `e`), and the
value the subclass predicate `_is_finished()` returns on this call. -/
structure PollEnv where
  duringBeh : Nat → Option Exc
  thenBeh : Nat → Option Exc
  pred : Bool

/-- A plain `for callback in ...: callback()` loop: callbacks run in order
and the first exception aborts the loop and propagates (the during-loop of
`poll` and the timeout-callback loop of `wait`).  Returns the identifiers of
the callbacks that were actually invoked, in order, and the exception that
escaped, if any. -/
def runFailFast (beh : Nat → Option Exc) : List Nat → List Nat × Option Exc
  | [] => ([], none)
  | c :: rest =>
    match beh c with
    | some e => ([c], some e)
    | none =>
      let r := runFailFast beh rest
      (c :: r.1, r.2)

/-- The guarded `then`-callback loop of `poll`: every callback is invoked;
each exception is caught and only the first one encountered is retained
(`if exc_info is None: exc_info = sys.exc_info()`).  Returns the identifiers
invoked, in order, and the retained first exception, if any. -/
def runThenLoop (beh : Nat → Option Exc) : List Nat → List Nat × Option Exc
  | [] => ([], none)
  | c :: rest =>
    let r := runThenLoop beh rest
    (c :: r.1, match beh c with
      | some e => some e
      | none => r.2)

/-- Everything one `poll()` call does: the state it leaves behind, the
during- and then-callbacks it invoked (in order), whether the subclass
predicate `_is_finished()` was evaluated, whether the then-callback batch
was entered, and the call's outcome (`Except.ok b` = returns `b`,
`Except.error e` = raises `e`). -/
structure PollOutcome where
  state : PactState
  ranDuring : List Nat
  predEvaluated : Bool
  firedThen : Bool
  ranThen : List Nat
  result : Except Exc Bool
deriving Repr

/-- Method `PactBase.is_finished`: a pure read of `self._finished`. -/
def is_finished (s : PactState) : Bool :=
  s._finished

/-- Method `PactBase.poll`, line by line: early-return `True` when `_finished` is
already set; run the during-callbacks (unguarded); assign
`self._finished = self._is_finished()`; when that made `_finished` true and
`_triggered` is still false, set `_triggered` and run the then-callbacks in
the guarded loop; re-raise the retained first exception, if any; otherwise
return `self.is_finished()`. -/
def poll (env : PollEnv) (s : PactState) : PollOutcome :=
  if s._finished then
    { state := s
      ranDuring := []
      predEvaluated := false
      firedThen := false
      ranThen := []
      result := Except.ok true }
  else
    let d := runFailFast env.duringBeh s._during
    match d.2 with
    | some e =>
      { state := s
        ranDuring := d.1
        predEvaluated := false
        firedThen := false
        ranThen := []
        result := Except.error e }
    | none =>
      let s1 : PactState := { s with _finished := env.pred }
      if s1._finished && !s1._triggered then
        let s2 : PactState := { s1 with _triggered := true }
        let t := runThenLoop env.thenBeh s2._then
        { state := s2
          ranDuring := d.1
          predEvaluated := true
          firedThen := true
          ranThen := t.1
          result := match t.2 with
            | some e => Except.error e
            | none => Except.ok s2._finished }
      else
        { state := s1
          ranDuring := d.1
          predEvaluated := true
          firedThen := false
          ranThen := []
          result := Except.ok s1._finished }

/-- A sequence of `poll()` calls on the same instance, one environment per
call: the final state and the list of per-call outcomes. -/
def pollSeq : List PollEnv → PactState → PactState × List PollOutcome
  | [], s => (s, [])
  | e :: rest, s =>
    let o := poll e s
    let r := pollSeq rest o.state
    (r.1, o :: r.2)

/-- Message of the `RuntimeError` raised by `_validate_can_add_callback`. -/
def cannotAddMsg : String :=
  "Cannot append then callbacks after pact was finished"

/-- Method `PactBase._validate_can_add_callback`: raises once `_finished` is set. -/
def _validate_can_add_callback (s : PactState) : Except PactError Unit :=
  if s._finished then
    Except.error (PactError.configurationError cannotAddMsg)
  else
    Except.ok ()

/-- Method `PactBase.then`: validate, append the bound closure (identifier `cb`) to
`self._then`, return `self`. -/
def «then» (s : PactState) (cb : Nat) : Except PactError PactState :=
  match _validate_can_add_callback s with
  | Except.error e => Except.error e
  | Except.ok _ => Except.ok { s with _then := s._then ++ [cb] }

/-- Method `PactBase.during`: validate, append to `self._during`, return `self`. -/
def during (s : PactState) (cb : Nat) : Except PactError PactState :=
  match _validate_can_add_callback s with
  | Except.error e => Except.error e
  | Except.ok _ => Except.ok { s with _during := s._during ++ [cb] }

/-- Method `PactBase.on_timeout`: validate, append to `self._timeout_callbacks`,
return `self`. -/
def on_timeout (s : PactState) (cb : Nat) : Except PactError PactState :=
  match _validate_can_add_callback s with
  | Except.error e => Except.error e
  | Except.ok _ =>
    Except.ok { s with _timeout_callbacks := s._timeout_callbacks ++ [cb] }

/-- Method `PactBase.set_default_timeout`: stores the value unconditionally (no
validation call appears in the source). -/
def set_default_timeout (s : PactState) (timeout_seconds : Int) : PactState :=
  { s with _timeout_seconds := some timeout_seconds }

/-- Method `PactBase.get_timeout_exception`: the default hook returns `None`,
meaning "re-raise the original timeout error". -/
def get_timeout_exception (_exc_info : Exc) : Option Exc :=
  none

/-- What the external wait-loop service (`waiting.wait`) does on one `wait()`
call: return normally, raise `TimeoutExpired`, or raise some other
exception. -/
inductive WaitLoopOutcome where
  | success
  | timeoutExpired (e : Exc)
  | otherError (e : Exc)

/-- The environment of one `wait()` call: the wait-loop outcome, the
behaviour of each on-timeout callback, and the (possibly overridden)
`get_timeout_exception` hook. -/
structure WaitEnv where
  loopOutcome : WaitLoopOutcome
  timeoutBeh : Nat → Option Exc
  translate : Exc → Option Exc

/-- Everything one `wait()` call does: the timeout passed to the wait-loop
service, the on-timeout callbacks invoked (in order), and the outcome. -/
structure WaitOutcome where
  effTimeout : Option Int
  ranTimeout : List Nat
  result : Except Exc Unit

/-- Method `PactBase.wait`: resolve the effective timeout (explicit argument if
given, else `self._timeout_seconds`); delegate to the wait-loop service; on
`TimeoutExpired`, run the on-timeout callbacks in an unguarded loop, then
consult `get_timeout_exception` — re-raise the original error when it
returns `None`, else raise the translated error; any other exception
propagates unchanged. -/
def wait (env : WaitEnv) (s : PactState) (timeout_seconds : Option Int) :
    WaitOutcome :=
  let eff : Option Int :=
    match timeout_seconds with
    | some t => some t
    | none => s._timeout_seconds
  match env.loopOutcome with
  | WaitLoopOutcome.success =>
    { effTimeout := eff, ranTimeout := [], result := Except.ok () }
  | WaitLoopOutcome.timeoutExpired e =>
    let r := runFailFast env.timeoutBeh s._timeout_callbacks
    match r.2 with
    | some e2 =>
      { effTimeout := eff, ranTimeout := r.1, result := Except.error e2 }
    | none =>
      match env.translate e with
      | none =>
        { effTimeout := eff, ranTimeout := r.1, result := Except.error e }
      | some e2 =>
        { effTimeout := eff, ranTimeout := r.1, result := Except.error e2 }
  | WaitLoopOutcome.otherError e =>
    { effTimeout := eff, ranTimeout := [], result := Except.error e }

/-- First exception, in registration order, that the callbacks of a registry
raise under behaviour `beh` ("the FIRST exception encountered" of the
specification). -/
def firstExc (beh : Nat → Option Exc) : List Nat → Option Exc
  | [] => none
  | c :: rest =>
    match beh c with
    | some e => some e
    | none => firstExc beh rest

/-- A `poll()` call under environment `env` "observes the predicate true"
when every during-callback of the registry `dur` returns normally (so the
predicate is reached) and the predicate evaluates to `true`. -/
def pollObserves (env : PollEnv) (dur : List Nat) : Bool :=
  dur.all (fun c => (env.duringBeh c).isNone) && env.pred

/-- Specification-side firing discipline, from the specification's words for
the on-complete batch: across a sequence of polls the batch fires exactly on
the first poll that observes the predicate true, and on no other poll. -/
def specThenFires (dur : List Nat) : List PollEnv → List Bool
  | [] => []
  | e :: rest =>
    if pollObserves e dur then
      true :: rest.map (fun _ => false)
    else
      false :: specThenFires dur rest

/-- A gate that has already completed, with empty registries. -/
def sCompleted : PactState :=
  { initPact with _finished := true }

/-- A fresh gate with two registered then-callbacks. -/
def sTwoThen : PactState :=
  { initPact with _then := [0, 1] }

/-- A fresh gate with two registered during-callbacks. -/
def sTwoDuring : PactState :=
  { initPact with _during := [0, 1] }

/-- A fresh gate with two registered on-timeout callbacks. -/
def sTwoTimeout : PactState :=
  { initPact with _timeout_callbacks := [0, 1] }

/-- A poll environment in which every callback returns normally and the
predicate evaluates to `b`. -/
def envAllOk (b : Bool) : PollEnv :=
  { duringBeh := fun _ => none
    thenBeh := fun _ => none
    pred := b }

/-- A poll environment whose predicate is true and whose first two
then-callbacks both raise (tokens 7 and 8). -/
def envThenRaise : PollEnv :=
  { duringBeh := fun _ => none
    thenBeh := fun c => if c = 0 then some 7 else if c = 1 then some 8 else none
    pred := true }

/-- A poll environment whose second during-callback (identifier 1) raises
token 9. -/
def envDuringRaise : PollEnv :=
  { duringBeh := fun c => if c = 1 then some 9 else none
    thenBeh := fun _ => none
    pred := true }

/-- A wait environment in which the wait-loop service raises
`TimeoutExpired` (token 3), every on-timeout callback returns normally, and
the translation hook is the default (`None`). -/
def waitEnvT : WaitEnv :=
  { loopOutcome := WaitLoopOutcome.timeoutExpired 3
    timeoutBeh := fun _ => none
    translate := fun _ => none }

/-- A three-poll environment sequence: predicate false, then true, then true
again, all callbacks well-behaved. -/
def envsW : List PollEnv :=
  [envAllOk false, envAllOk true, envAllOk true]

theorem runFailFast_clean (beh : Nat → Option Exc) (l : List Nat)
    (h : ∀ c ∈ l, beh c = none) : runFailFast beh l = (l, none) := by
  induction l with
  | nil => rfl
  | cons c rest ih =>
    have hc : beh c = none := h c (by simp)
    have hrest : runFailFast beh rest = (rest, none) :=
      ih (fun x hx => h x (by simp [hx]))
    simp [runFailFast, hc, hrest]

theorem runFailFast_raise (beh : Nat → Option Exc) (pre post : List Nat)
    (c : Nat) (e : Exc) (hpre : ∀ x ∈ pre, beh x = none)
    (hc : beh c = some e) :
    runFailFast beh (pre ++ c :: post) = (pre ++ [c], some e) := by
  induction pre with
  | nil => simp [runFailFast, hc]
  | cons x rest ih =>
    have hx : beh x = none := hpre x (by simp)
    have hrest := ih (fun y hy => hpre y (by simp [hy]))
    simp [runFailFast, hx, hrest]

theorem runFailFast_isNone (beh : Nat → Option Exc) (l : List Nat) :
    (runFailFast beh l).2.isNone = l.all (fun c => (beh c).isNone) := by
  induction l with
  | nil => rfl
  | cons c rest ih =>
    cases hc : beh c with
    | some e => simp [runFailFast, hc]
    | none => simp [runFailFast, hc, ih]

theorem runThenLoop_eq (beh : Nat → Option Exc) (l : List Nat) :
    runThenLoop beh l = (l, firstExc beh l) := by
  induction l with
  | nil => rfl
  | cons c rest ih =>
    cases hc : beh c with
    | some e => simp [runThenLoop, firstExc, hc, ih]
    | none => simp [runThenLoop, firstExc, hc, ih]

theorem poll_early (env : PollEnv) (s : PactState) (h : s._finished = true) :
    poll env s =
      { state := s
        ranDuring := []
        predEvaluated := false
        firedThen := false
        ranThen := []
        result := Except.ok true } := by
  simp [poll, h]

theorem poll_fire (env : PollEnv) (s : PactState)
    (hf : s._finished = false) (ht : s._triggered = false)
    (hd : ∀ c ∈ s._during, env.duringBeh c = none)
    (hp : env.pred = true) :
    poll env s =
      { state := { s with _finished := true, _triggered := true }
        ranDuring := s._during
        predEvaluated := true
        firedThen := true
        ranThen := s._then
        result := match firstExc env.thenBeh s._then with
          | some e => Except.error e
          | none => Except.ok true } := by
  have hrun := runFailFast_clean env.duringBeh s._during hd
  simp [poll, hf, hrun, hp, ht, runThenLoop_eq]

theorem poll_during_exc (env : PollEnv) (s : PactState)
    (pre post : List Nat) (c : Nat) (e : Exc)
    (hf : s._finished = false)
    (hsplit : s._during = pre ++ c :: post)
    (hpre : ∀ x ∈ pre, env.duringBeh x = none)
    (hc : env.duringBeh c = some e) :
    poll env s =
      { state := s
        ranDuring := pre ++ [c]
        predEvaluated := false
        firedThen := false
        ranThen := []
        result := Except.error e } := by
  have hrun : runFailFast env.duringBeh s._during = (pre ++ [c], some e) := by
    rw [hsplit]
    exact runFailFast_raise env.duringBeh pre post c e hpre hc
  simp [poll, hf, hrun]

theorem poll_nofire (env : PollEnv) (s : PactState)
    (hf : s._finished = false)
    (hd : ∀ c ∈ s._during, env.duringBeh c = none)
    (hp : (env.pred && !s._triggered) = false) :
    poll env s =
      { state := { s with _finished := env.pred }
        ranDuring := s._during
        predEvaluated := true
        firedThen := false
        ranThen := []
        result := Except.ok env.pred } := by
  have hrun := runFailFast_clean env.duringBeh s._during hd
  simp [poll, hf, hrun, hp]

theorem poll_during_exc_state (env : PollEnv) (s : PactState) (e : Exc)
    (hf : s._finished = false)
    (hE : (runFailFast env.duringBeh s._during).2 = some e) :
    poll env s =
      { state := s
        ranDuring := (runFailFast env.duringBeh s._during).1
        predEvaluated := false
        firedThen := false
        ranThen := []
        result := Except.error e } := by
  simp [poll, hf, hE]

theorem all_isNone_forall (beh : Nat → Option Exc) (l : List Nat)
    (h : l.all (fun c => (beh c).isNone) = true) :
    ∀ c ∈ l, beh c = none := by
  intro c hc
  have := List.all_eq_true.mp h c hc
  simpa [Option.isNone_iff_eq_none] using this

theorem poll_state_during (env : PollEnv) (s : PactState) :
    (poll env s).state._during = s._during := by
  unfold poll
  split
  · rfl
  · dsimp only
    split
    · rfl
    · split
      · rfl
      · rfl

theorem poll_state_finished (env : PollEnv) (s : PactState) :
    (poll env s).state._finished =
      (s._finished || pollObserves env s._during) := by
  cases hF : s._finished with
  | true => rw [poll_early env s hF]; simp [hF]
  | false =>
    cases hall : s._during.all (fun c => (env.duringBeh c).isNone) with
    | true =>
      have hd := all_isNone_forall env.duringBeh s._during hall
      cases hcond : (env.pred && !s._triggered) with
      | true =>
        obtain ⟨hp, ht⟩ : env.pred = true ∧ s._triggered = false := by
          simpa using hcond
        rw [poll_fire env s hF ht hd hp]
        simp [pollObserves, hall, hp]
      | false =>
        rw [poll_nofire env s hF hd hcond]
        simp [pollObserves, hall]
    | false =>
      have h2 : (runFailFast env.duringBeh s._during).2.isNone = false := by
        rw [runFailFast_isNone]; exact hall
      obtain ⟨e, hE⟩ : ∃ e, (runFailFast env.duringBeh s._during).2 = some e := by
        cases h : (runFailFast env.duringBeh s._during).2 with
        | none => rw [h] at h2; simp at h2
        | some e => exact ⟨e, rfl⟩
      rw [poll_during_exc_state env s e hF hE]
      simp [pollObserves, hall, hF]

theorem pollSeq_finished_fires (envs : List PollEnv) (s : PactState)
    (h : s._finished = true) :
    (pollSeq envs s).2.map (fun o => o.firedThen) =
      envs.map (fun _ => false) := by
  induction envs generalizing s with
  | nil => rfl
  | cons e rest ih =>
    simp [pollSeq, poll_early e s h, ih s h]

theorem specThenFires_count (dur : List Nat) (envs : List PollEnv) :
    (specThenFires dur envs).count true ≤ 1 := by
  induction envs with
  | nil => simp [specThenFires]
  | cons e rest ih =>
    by_cases h : pollObserves e dur = true
    · have hz : List.count true (List.replicate rest.length false) = 0 := by
        rw [List.count_eq_zero]
        simp [List.mem_replicate]
      simp [specThenFires, h, List.count_cons, hz]
    · have h' : pollObserves e dur = false := by
        simpa using h
      simp only [specThenFires, h', if_false, List.count_cons]
      simpa using ih

theorem pollSeq_fires_eq_spec (envs : List PollEnv) (s : PactState)
    (hf : s._finished = false) (ht : s._triggered = false) :
    (pollSeq envs s).2.map (fun o => o.firedThen) =
      specThenFires s._during envs := by
  induction envs generalizing s with
  | nil => rfl
  | cons e rest ih =>
    cases ho : pollObserves e s._during with
    | true =>
      have hall : s._during.all (fun c => (e.duringBeh c).isNone) = true := by
        cases h1 : s._during.all (fun c => (e.duringBeh c).isNone)
        · rw [pollObserves, h1] at ho; simp at ho
        · rfl
      have hp : e.pred = true := by
        cases h1 : e.pred
        · rw [pollObserves, h1] at ho; simp at ho
        · rfl
      have hd := all_isNone_forall e.duringBeh s._during hall
      have hfire := poll_fire e s hf ht hd hp
      simp only [pollSeq, hfire, specThenFires, ho, if_true, List.map]
      refine congrArg (List.cons true) ?_
      exact pollSeq_finished_fires rest _ rfl
    | false =>
      have hoif : ¬ (pollObserves e s._during = true) := by simp [ho]
      cases hall : s._during.all (fun c => (e.duringBeh c).isNone) with
      | true =>
        have hp : e.pred = false := by
          have := ho
          rw [pollObserves, hall] at this
          simpa using this
        have hd := all_isNone_forall e.duringBeh s._during hall
        have hcond : (e.pred && !s._triggered) = false := by simp [hp]
        have hnf := poll_nofire e s hf hd hcond
        simp only [pollSeq, hnf, specThenFires, hoif, if_false, List.map]
        refine congrArg (List.cons false) ?_
        have : ({ s with _finished := e.pred } : PactState)._finished = false := by
          simpa using hp
        exact ih { s with _finished := e.pred } this ht
      | false =>
        have h2 : (runFailFast e.duringBeh s._during).2.isNone = false := by
          rw [runFailFast_isNone]; exact hall
        obtain ⟨exc, hE⟩ :
            ∃ exc, (runFailFast e.duringBeh s._during).2 = some exc := by
          cases h : (runFailFast e.duringBeh s._during).2 with
          | none => rw [h] at h2; simp at h2
          | some exc => exact ⟨exc, rfl⟩
        have hde := poll_during_exc_state e s exc hf hE
        simp only [pollSeq, hde, specThenFires, hoif, if_false, List.map]
        exact congrArg (List.cons false) (ih s hf ht)

/-- Claim C1: on a `poll()` call whose predicate evaluates true, if one or
more then-callbacks raise, every registered then-callback still executes, in
registration order, and `poll()` re-raises exactly the first exception
encountered. -/
theorem poll_then_batch_isolation (env : PollEnv) (s : PactState) (e : Exc)
    (hf : s._finished = false) (ht : s._triggered = false)
    (hd : ∀ c ∈ s._during, env.duringBeh c = none)
    (hp : env.pred = true)
    (he : firstExc env.thenBeh s._then = some e) :
    (poll env s).ranThen = s._then ∧ (poll env s).result = Except.error e := by
  rw [poll_fire env s hf ht hd hp]
  exact ⟨rfl, by simp [he]⟩

/-- Witness for C1: a gate with then-callbacks `[0, 1]` that raise tokens 7
and 8 runs both and re-raises the first token, 7. -/
theorem poll_then_batch_isolation_witness :
    firstExc envThenRaise.thenBeh sTwoThen._then = some 7
    ∧ ((poll envThenRaise sTwoThen).ranThen = sTwoThen._then
      ∧ (poll envThenRaise sTwoThen).result = Except.error 7) :=
  ⟨rfl, poll_then_batch_isolation envThenRaise sTwoThen 7 rfl rfl
    (by decide) rfl rfl⟩

/-- Claim C3: when `completed` is already true at entry, `poll()` returns
true immediately, runs no during- or then-callbacks, does not evaluate the
predicate, and leaves the state untouched. -/
theorem poll_completed_early_return (env : PollEnv) (s : PactState)
    (h : is_finished s = true) :
    (poll env s).result = Except.ok true
    ∧ (poll env s).ranDuring = []
    ∧ (poll env s).predEvaluated = false
    ∧ (poll env s).ranThen = []
    ∧ (poll env s).state = s := by
  rw [poll_early env s h]
  exact ⟨rfl, rfl, rfl, rfl, rfl⟩

/-- Witness for C3: a completed gate polled under any environment. -/
theorem poll_completed_early_return_witness :
    is_finished sCompleted = true
    ∧ ((poll (envAllOk false) sCompleted).result = Except.ok true
      ∧ (poll (envAllOk false) sCompleted).ranDuring = []
      ∧ (poll (envAllOk false) sCompleted).predEvaluated = false
      ∧ (poll (envAllOk false) sCompleted).ranThen = []
      ∧ (poll (envAllOk false) sCompleted).state = sCompleted) :=
  ⟨rfl, poll_completed_early_return (envAllOk false) sCompleted rfl⟩

/-- Claim C4: on an uncompleted gate, a during-callback's exception
propagates immediately out of `poll()`: the callbacks before it ran, the
later during-callbacks did not, the predicate was not evaluated, no
then-callback ran, and the state (in particular the `_finished` and
`_triggered` flags) is unchanged. -/
theorem poll_during_raise_propagates (env : PollEnv) (s : PactState)
    (pre post : List Nat) (c : Nat) (e : Exc)
    (hf : s._finished = false)
    (hsplit : s._during = pre ++ c :: post)
    (hpre : ∀ x ∈ pre, env.duringBeh x = none)
    (hc : env.duringBeh c = some e) :
    (poll env s).result = Except.error e
    ∧ (poll env s).ranDuring = pre ++ [c]
    ∧ (poll env s).predEvaluated = false
    ∧ (poll env s).ranThen = []
    ∧ (poll env s).state = s := by
  rw [poll_during_exc env s pre post c e hf hsplit hpre hc]
  exact ⟨rfl, rfl, rfl, rfl, rfl⟩

/-- Witness for C4: during-callbacks `[0, 1]` where callback 1 raises token
9: callback 0 ran, the predicate was not evaluated, the state is unchanged. -/
theorem poll_during_raise_propagates_witness :
    (poll envDuringRaise sTwoDuring).result = Except.error 9
    ∧ (poll envDuringRaise sTwoDuring).ranDuring = [0] ++ [1]
    ∧ (poll envDuringRaise sTwoDuring).predEvaluated = false
    ∧ (poll envDuringRaise sTwoDuring).ranThen = []
    ∧ (poll envDuringRaise sTwoDuring).state = sTwoDuring :=
  poll_during_raise_propagates envDuringRaise sTwoDuring [0] [] 1 9 rfl rfl
    (by decide) rfl

/-- Claim C5: across any sequence of `poll()` calls, `is_finished` is false
until the first poll that observes the predicate true (during-callbacks all
returning, predicate evaluating true) and true on every query thereafter:
the final `_finished` flag equals the initial flag OR-ed with "some poll of
the sequence observed the predicate true", so the flag only ever moves from
false to true and never resets. -/
theorem is_finished_monotone_observation (s : PactState)
    (envs : List PollEnv) :
    is_finished (pollSeq envs s).1 =
      (is_finished s || envs.any (fun e => pollObserves e s._during)) := by
  simp only [is_finished]
  induction envs generalizing s with
  | nil => simp [pollSeq]
  | cons e rest ih =>
    have h1 : (pollSeq (e :: rest) s).1 = (pollSeq rest (poll e s).state).1 :=
      rfl
    rw [h1, ih]
    simp only [poll_state_during, poll_state_finished, List.any_cons]
    cases s._finished <;> cases pollObserves e s._during <;> simp

/-- Claim C6: across any sequence of `poll()` calls on a gate whose flags
start false, the then-callback batch is entered exactly on the first poll
that observes the predicate true and on no other poll — hence at most once
in total. -/
theorem then_batch_fires_exactly_once (envs : List PollEnv) (s : PactState)
    (hf : s._finished = false) (ht : s._triggered = false) :
    (pollSeq envs s).2.map (fun o => o.firedThen) =
      specThenFires s._during envs
    ∧ ((pollSeq envs s).2.map (fun o => o.firedThen)).count true ≤ 1 := by
  have h := pollSeq_fires_eq_spec envs s hf ht
  exact ⟨h, by rw [h]; exact specThenFires_count s._during envs⟩

/-- Witness for C6: three polls (predicate false, true, true) on a fresh
gate fire the batch exactly on the second poll. -/
theorem then_batch_fires_exactly_once_witness :
    ((pollSeq envsW initPact).2.map (fun o => o.firedThen) =
      specThenFires initPact._during envsW)
    ∧ (((pollSeq envsW initPact).2.map (fun o => o.firedThen)).count true ≤ 1) :=
  then_batch_fires_exactly_once envsW initPact rfl rfl

/-- Claim C10: when the predicate is observed true and a then-callback
raises, `poll()` re-raises after having set both flags: the failing call
leaves `_finished` and `_triggered` true, `is_finished` reads true, and
every subsequent `poll()` returns true immediately without running any
callback. -/
theorem poll_raise_still_completed (env : PollEnv) (s : PactState) (e : Exc)
    (hf : s._finished = false) (ht : s._triggered = false)
    (hd : ∀ c ∈ s._during, env.duringBeh c = none)
    (hp : env.pred = true)
    (he : firstExc env.thenBeh s._then = some e) :
    (poll env s).result = Except.error e
    ∧ (poll env s).state._finished = true
    ∧ (poll env s).state._triggered = true
    ∧ is_finished (poll env s).state = true
    ∧ ∀ env2, poll env2 (poll env s).state =
        { state := (poll env s).state
          ranDuring := []
          predEvaluated := false
          firedThen := false
          ranThen := []
          result := Except.ok true } := by
  rw [poll_fire env s hf ht hd hp]
  refine ⟨by simp [he], rfl, rfl, rfl, ?_⟩
  intro env2
  exact poll_early env2 _ rfl

/-- Witness for C10: the failing poll of the C1 scenario leaves the gate
completed and triggered, and a next poll early-returns true. -/
theorem poll_raise_still_completed_witness :
    (poll envThenRaise sTwoThen).result = Except.error 7
    ∧ (poll envThenRaise sTwoThen).state._finished = true
    ∧ (poll envThenRaise sTwoThen).state._triggered = true
    ∧ is_finished (poll envThenRaise sTwoThen).state = true
    ∧ ∀ env2, poll env2 (poll envThenRaise sTwoThen).state =
        { state := (poll envThenRaise sTwoThen).state
          ranDuring := []
          predEvaluated := false
          firedThen := false
          ranThen := []
          result := Except.ok true } :=
  poll_raise_still_completed envThenRaise sTwoThen 7 rfl rfl (by decide)
    rfl rfl

/-- Claim C2 counterexample: on a gate that has already completed,
`set_default_timeout` does not fail — there is no validation call in its
body — and the stored default timeout does change: from `none` to the new
value. -/
theorem set_default_timeout_guard_cex :
    is_finished sCompleted = true
    ∧ sCompleted._timeout_seconds = none
    ∧ (set_default_timeout sCompleted 5)._timeout_seconds = some 5 :=
  ⟨rfl, rfl, rfl⟩

/-- Claim C2 as amended: on a gate with `completed` already true,
`set_default_timeout` succeeds (no error is possible), stores the given
value as the new default timeout, and changes nothing else. -/
theorem set_default_timeout_after_completion (s : PactState) (t : Int)
    (h : is_finished s = true) :
    set_default_timeout s t = { s with _timeout_seconds := some t }
    ∧ (set_default_timeout s t)._timeout_seconds = some t
    ∧ is_finished (set_default_timeout s t) = true :=
  ⟨rfl, rfl, h⟩

/-- Witness for the amended C2: the completed gate, default timeout 5. -/
theorem set_default_timeout_after_completion_witness :
    is_finished sCompleted = true
    ∧ (set_default_timeout sCompleted 5 =
        { sCompleted with _timeout_seconds := some (5 : Int) }
      ∧ (set_default_timeout sCompleted 5)._timeout_seconds = some 5
      ∧ is_finished (set_default_timeout sCompleted 5) = true) :=
  ⟨rfl, set_default_timeout_after_completion sCompleted 5 rfl⟩

/-- Claim C7: when the wait-loop service raises `TimeoutExpired`, `wait()`
runs the on-timeout callbacks in registration order with no exception
isolation — if they all return, every one ran and the translation hook
decides the outcome (original error re-raised when the hook returns `None`,
translated error raised otherwise); if one raises, the batch stops there and
that exception propagates instead. -/
theorem wait_timeout_dispatch (env : WaitEnv) (s : PactState)
    (tSec : Option Int) (e : Exc)
    (h : env.loopOutcome = WaitLoopOutcome.timeoutExpired e) :
    ((∀ c ∈ s._timeout_callbacks, env.timeoutBeh c = none) →
      (wait env s tSec).ranTimeout = s._timeout_callbacks
      ∧ (env.translate e = none →
          (wait env s tSec).result = Except.error e)
      ∧ (∀ e2, env.translate e = some e2 →
          (wait env s tSec).result = Except.error e2))
    ∧ (∀ pre c post e2, s._timeout_callbacks = pre ++ c :: post →
        (∀ x ∈ pre, env.timeoutBeh x = none) →
        env.timeoutBeh c = some e2 →
        (wait env s tSec).ranTimeout = pre ++ [c]
        ∧ (wait env s tSec).result = Except.error e2) := by
  constructor
  · intro hclean
    have hrun := runFailFast_clean env.timeoutBeh s._timeout_callbacks hclean
    refine ⟨by cases hT : env.translate e <;> simp [wait, h, hrun, hT],
      fun htr => ?_, fun e2 htr => ?_⟩
    · simp [wait, h, hrun, htr]
    · simp [wait, h, hrun, htr]
  · intro pre c post e2 hsplit hpre hc
    have hrun : runFailFast env.timeoutBeh s._timeout_callbacks =
        (pre ++ [c], some e2) := by
      rw [hsplit]
      exact runFailFast_raise env.timeoutBeh pre post c e2 hpre hc
    exact ⟨by simp [wait, h, hrun], by simp [wait, h, hrun]⟩

/-- Witness for C7: two well-behaved on-timeout callbacks and the default
hook — both run and the original timeout error (token 3) is re-raised. -/
theorem wait_timeout_dispatch_witness :
    (wait waitEnvT sTwoTimeout none).ranTimeout =
      sTwoTimeout._timeout_callbacks
    ∧ (wait waitEnvT sTwoTimeout none).result = Except.error 3 :=
  ⟨((wait_timeout_dispatch waitEnvT sTwoTimeout none 3 rfl).1
      (by decide)).1,
   ((wait_timeout_dispatch waitEnvT sTwoTimeout none 3 rfl).1
      (by decide)).2.1 rfl⟩

/-- Claim C8: each of the three registration operations raises the
configuration error when `completed` is true (producing no new state, so
every registry is unchanged), and on an uncompleted gate appends the bound
callback to its own registry and returns the gate. -/
theorem registration_guard_and_append (s : PactState) (cb : Nat) :
    (is_finished s = true →
      «then» s cb = Except.error (PactError.configurationError cannotAddMsg)
      ∧ during s cb = Except.error (PactError.configurationError cannotAddMsg)
      ∧ on_timeout s cb =
          Except.error (PactError.configurationError cannotAddMsg))
    ∧ (is_finished s = false →
      «then» s cb = Except.ok { s with _then := s._then ++ [cb] }
      ∧ during s cb = Except.ok { s with _during := s._during ++ [cb] }
      ∧ on_timeout s cb =
          Except.ok
            { s with _timeout_callbacks := s._timeout_callbacks ++ [cb] }) := by
  constructor
  · intro h
    have h' : s._finished = true := h
    exact ⟨by simp [«then», _validate_can_add_callback, h'],
      by simp [during, _validate_can_add_callback, h'],
      by simp [on_timeout, _validate_can_add_callback, h']⟩
  · intro h
    have h' : s._finished = false := h
    exact ⟨by simp [«then», _validate_can_add_callback, h'],
      by simp [during, _validate_can_add_callback, h'],
      by simp [on_timeout, _validate_can_add_callback, h']⟩

/-- Witness for C8: registration on a completed gate errors; registration on
a fresh gate appends. -/
theorem registration_guard_and_append_witness :
    («then» sCompleted 3 =
      Except.error (PactError.configurationError cannotAddMsg))
    ∧ (during initPact 4 =
      Except.ok { initPact with _during := initPact._during ++ [4] }) :=
  ⟨((registration_guard_and_append sCompleted 3).1 rfl).1,
   ((registration_guard_and_append initPact 4).2 rfl).2.1⟩

theorem wait_effTimeout (env : WaitEnv) (s : PactState) (tSec : Option Int) :
    (wait env s tSec).effTimeout =
      match tSec with
      | some t => some t
      | none => s._timeout_seconds := by
  cases hL : env.loopOutcome with
  | success => simp [wait, hL]
  | timeoutExpired e =>
    cases hR : (runFailFast env.timeoutBeh s._timeout_callbacks).2 with
    | none => cases hT : env.translate e <;> simp [wait, hL, hR, hT]
    | some e2 => simp [wait, hL, hR]
  | otherError e => simp [wait, hL]

/-- Claim C9: the timeout handed to the wait-loop service is the explicit
argument when one is given, else the stored default, else `none`
(unbounded). -/
theorem wait_effective_timeout_resolution (env : WaitEnv) (s : PactState) :
    (∀ t : Int, (wait env s (some t)).effTimeout = some t)
    ∧ (wait env s none).effTimeout = s._timeout_seconds
    ∧ (s._timeout_seconds = none → (wait env s none).effTimeout = none) := by
  refine ⟨fun t => ?_, ?_, fun h => ?_⟩
  · rw [wait_effTimeout]
  · rw [wait_effTimeout]
  · rw [wait_effTimeout, h]

/-- Witness for C9: an explicit argument wins; with no argument and no
stored default the wait is unbounded. -/
theorem wait_effective_timeout_resolution_witness :
    (wait waitEnvT initPact (some 7)).effTimeout = some 7
    ∧ (wait waitEnvT initPact none).effTimeout = none :=
  ⟨(wait_effective_timeout_resolution waitEnvT initPact).1 7,
   (wait_effective_timeout_resolution waitEnvT initPact).2.2 rfl⟩

end Pact
